import Mathlib

/-!
Verification of the study-schedule manager (`src/app.py`) against its
natural-language specification.

The application keeps one SQLite table `schedules` and exposes four CRUD
functions (`add_schedule`, `get_all_schedules`, `update_schedule`,
`delete_schedule`), a CSV export (`export_to_csv`), a PDF export
(`generate_pdf`) and a weekly calendar view.  We embed those operations
shallowly:

* a table row becomes the structure `Row`; SQLite `NULL` is modelled by
  `Option`, so the nullable columns (`lesson`, `notes`, `color`) and the
  raw insert parameters are `Option String`;
* the database becomes `DB`, a list of rows plus the `AUTOINCREMENT`
  counter;
* a statement that can hit a constraint violation returns
  `Except DBError DB`; the Python functions return `None` on success and
  raise only on storage-level errors, so `Except.ok` is the one success
  signal and there is no not-found channel;
* `ORDER BY study_date, session` compares the two `TEXT` columns with
  SQLite's BINARY collation, i.e. bytewise on UTF-8, which coincides with
  code-point order, i.e. with Lean's `String` linear order; we model the
  query as an insertion sort by that lexicographic key;
* Python `date` values become day numbers (`Int`, days since 1970-01-01)
  with the standard civil-calendar conversion, and `date.weekday()`
  (Monday = 0 … Sunday = 6) becomes `weekdayZ`.
-/

namespace StudySchedule

/-- One row of the `schedules` table (`init_db`, src/app.py lines 24-37).
`lesson`, `notes` and `color` have no NOT NULL constraint, so they can hold
SQLite NULL, modelled as `none`.  `created_at` is filled from the insert-time
DEFAULT CURRENT_TIMESTAMP. -/
structure Row where
  id : Nat
  course_name : String
  course_code : String
  teacher : String
  lesson : Option String
  notes : Option String
  study_date : String
  session : String
  color : Option String
  created_at : String
deriving DecidableEq, Repr

/-- The eight values handed to `add_schedule` / `update_schedule` by the
caller.  Python is dynamically typed and SQLite accepts NULL parameters, so
every value is an `Option String` (`none` = SQL NULL). -/
structure RowInput where
  course_name : Option String
  course_code : Option String
  teacher : Option String
  lesson : Option String
  notes : Option String
  study_date : Option String
  session : Option String
  color : Option String
deriving DecidableEq, Repr

/-- The only error the four CRUD statements can raise beyond I/O failure:
an sqlite3.IntegrityError from a NOT NULL constraint.  There is no
not-found error constructor because the code has none. -/
inductive DBError
  | notNullViolation
deriving DecidableEq, Repr

/-- The database state: the stored rows in insertion order plus the
AUTOINCREMENT counter (ids are never reused after deletion). -/
structure DB where
  rows : List Row
  next_id : Nat
deriving DecidableEq, Repr

instance {ε α : Type} [DecidableEq ε] [DecidableEq α] :
    DecidableEq (Except ε α) := fun a b =>
  match a, b with
  | Except.ok x, Except.ok y =>
      if h : x = y then isTrue (by rw [h]) else isFalse (by simp [h])
  | Except.error e, Except.error f =>
      if h : e = f then isTrue (by rw [h]) else isFalse (by simp [h])
  | Except.ok _, Except.error _ => isFalse (by simp)
  | Except.error _, Except.ok _ => isFalse (by simp)

/-- `add_schedule` (src/app.py lines 42-50): INSERT with the eight bound
parameters.  SQLite checks the NOT NULL constraints of `course_name`,
`course_code`, `teacher`, `study_date`, `session`; any other value —
empty strings, arbitrary `session` text, unparseable dates — is stored
verbatim, since the function performs no validation.  `created_at` is the
DEFAULT CURRENT_TIMESTAMP, passed here as `now`. -/
def add_schedule (db : DB) (now : String) (inp : RowInput) : Except DBError DB :=
  match inp.course_name, inp.course_code, inp.teacher, inp.study_date, inp.session with
  | some cn, some cc, some th, some sd, some ss =>
      Except.ok
        { rows := db.rows ++
            [{ id := db.next_id, course_name := cn, course_code := cc,
               teacher := th, lesson := inp.lesson, notes := inp.notes,
               study_date := sd, session := ss, color := inp.color,
               created_at := now }],
          next_id := db.next_id + 1 }
  | _, _, _, _, _ => Except.error DBError.notNullViolation

/-- SQLite BINARY collation on two TEXT values: bytewise comparison of the
UTF-8 encodings, which for valid UTF-8 is exactly code-point order on the
character sequences. -/
def strCmp : List Char → List Char → Ordering
  | [], [] => Ordering.eq
  | [], _ :: _ => Ordering.lt
  | _ :: _, [] => Ordering.gt
  | a :: as, b :: bs =>
    if a.toNat < b.toNat then Ordering.lt
    else if b.toNat < a.toNat then Ordering.gt
    else strCmp as bs

theorem strCmp_self (as : List Char) : strCmp as as = Ordering.eq := by
  induction as with
  | nil => rfl
  | cons a as ih => simp [strCmp, ih]

theorem strCmp_eq_iff (as bs : List Char) :
    strCmp as bs = Ordering.eq ↔ as = bs := by
  constructor
  · induction as generalizing bs with
    | nil => cases bs with
      | nil => intro _; rfl
      | cons b bs => intro h; simp [strCmp] at h
    | cons a as ih =>
      cases bs with
      | nil => intro h; simp [strCmp] at h
      | cons b bs =>
        intro h
        simp only [strCmp] at h
        rcases Nat.lt_trichotomy a.toNat b.toNat with hl | he | hg
        · rw [if_pos hl] at h
          simp at h
        · rw [if_neg (by omega), if_neg (by omega)] at h
          have hab : a = b := Char.ext (UInt32.ext he)
          exact hab ▸ congrArg (List.cons a) (ih bs h)
        · rw [if_neg (by omega), if_pos hg] at h
          simp at h
  · intro h; exact h ▸ strCmp_self as

theorem strCmp_gt_iff_lt (as bs : List Char) :
    strCmp as bs = Ordering.gt ↔ strCmp bs as = Ordering.lt := by
  induction as generalizing bs with
  | nil => cases bs with
    | nil => simp [strCmp]
    | cons b bs => simp [strCmp]
  | cons a as ih =>
    cases bs with
    | nil => simp [strCmp]
    | cons b bs =>
      simp only [strCmp]
      rcases Nat.lt_trichotomy a.toNat b.toNat with h | h | h
      · simp [h, Nat.not_lt.mpr (Nat.le_of_lt h)]
      · simp [h, Nat.lt_irrefl, ih bs]
      · simp [h, Nat.not_lt.mpr (Nat.le_of_lt h)]

theorem strCmp_lt_trans {as bs cs : List Char}
    (h1 : strCmp as bs = Ordering.lt) (h2 : strCmp bs cs = Ordering.lt) :
    strCmp as cs = Ordering.lt := by
  induction as generalizing bs cs with
  | nil => cases cs with
    | nil =>
      cases bs with
      | nil => exact h1
      | cons b bs => simp [strCmp] at h2
    | cons c cs => simp [strCmp]
  | cons a as ih =>
    cases bs with
    | nil => simp [strCmp] at h1
    | cons b bs =>
      cases cs with
      | nil => simp [strCmp] at h2
      | cons c cs =>
        simp only [strCmp] at h1 h2 ⊢
        rcases Nat.lt_trichotomy a.toNat b.toNat with hab | hab | hab
        · rcases Nat.lt_trichotomy b.toNat c.toNat with hbc | hbc | hbc
          · rw [if_pos (by omega)]
          · rw [if_pos (by omega)]
          · rw [if_neg (by omega), if_pos hbc] at h2
            simp at h2
        · rcases Nat.lt_trichotomy b.toNat c.toNat with hbc | hbc | hbc
          · rw [if_pos (by omega)]
          · rw [if_neg (by omega), if_neg (by omega)] at h1
            rw [if_neg (by omega), if_neg (by omega)] at h2
            rw [if_neg (by omega), if_neg (by omega)]
            exact ih h1 h2
          · rw [if_neg (by omega), if_pos hbc] at h2
            simp at h2
        · rw [if_neg (by omega), if_pos hab] at h1
          simp at h1

theorem strCmp_le_trans {as bs cs : List Char}
    (h1 : strCmp as bs ≠ Ordering.gt) (h2 : strCmp bs cs ≠ Ordering.gt) :
    strCmp as cs ≠ Ordering.gt := by
  rcases h1' : strCmp as bs with _ | _ | _
  · rcases h2' : strCmp bs cs with _ | _ | _
    · intro hc
      have hca := (strCmp_gt_iff_lt as cs).mp hc
      have hcb := strCmp_lt_trans hca h1'
      exact h2 ((strCmp_gt_iff_lt bs cs).mpr hcb)
    · have e := (strCmp_eq_iff bs cs).mp h2'
      rw [← e, h1']
      simp
    · exact absurd h2' h2
  · have e := (strCmp_eq_iff as bs).mp h1'
    rw [e]; exact h2
  · exact absurd h1' h1

/-- The ORDER BY key of `get_all_schedules`: `(study_date, session)`
compared lexicographically, each TEXT component by BINARY collation. -/
def rowCmp (a b : Row) : Ordering :=
  match strCmp a.study_date.data b.study_date.data with
  | Ordering.lt => Ordering.lt
  | Ordering.gt => Ordering.gt
  | Ordering.eq => strCmp a.session.data b.session.data

/-- Row `a` may appear no later than row `b` in the ORDER BY result. -/
def rowLe (a b : Row) : Prop := rowCmp a b ≠ Ordering.gt

instance : DecidableRel rowLe := fun a b => by
  unfold rowLe; infer_instance

theorem rowCmp_gt_iff_lt (a b : Row) :
    rowCmp a b = Ordering.gt ↔ rowCmp b a = Ordering.lt := by
  unfold rowCmp
  rcases hd : strCmp a.study_date.data b.study_date.data with _ | _ | _
  · have hd2 : strCmp b.study_date.data a.study_date.data = Ordering.gt :=
      (strCmp_gt_iff_lt _ _).mpr hd
    simp [hd, hd2]
  · have e := (strCmp_eq_iff _ _).mp hd
    have hd2 : strCmp b.study_date.data a.study_date.data = Ordering.eq :=
      (strCmp_eq_iff _ _).mpr e.symm
    simp only [hd, hd2]
    exact strCmp_gt_iff_lt _ _
  · have hd2 : strCmp b.study_date.data a.study_date.data = Ordering.lt :=
      (strCmp_gt_iff_lt _ _).mp hd
    simp [hd, hd2]

instance : IsTotal Row rowLe := by
  constructor
  intro a b
  by_cases h : rowCmp a b = Ordering.gt
  · right
    unfold rowLe
    rw [(rowCmp_gt_iff_lt a b).mp h]
    simp
  · left
    exact h

instance : IsTrans Row rowLe := by
  constructor
  intro a b c hab hbc
  unfold rowLe rowCmp at hab hbc ⊢
  rcases hd1 : strCmp a.study_date.data b.study_date.data with _ | _ | _
  · rcases hd2 : strCmp b.study_date.data c.study_date.data with _ | _ | _
    · simp [strCmp_lt_trans hd1 hd2]
    · have e := (strCmp_eq_iff _ _).mp hd2
      rw [← e]
      simp [hd1]
    · simp [hd2] at hbc
  · have e1 := (strCmp_eq_iff _ _).mp hd1
    rcases hd2 : strCmp b.study_date.data c.study_date.data with _ | _ | _
    · rw [e1]
      simp [hd2]
    · have e2 := (strCmp_eq_iff _ _).mp hd2
      rw [e1, e2, strCmp_self]
      simp [hd1] at hab
      simp [hd2] at hbc
      exact strCmp_le_trans hab hbc
    · simp [hd2] at hbc
  · simp [hd1] at hab

/-- `get_all_schedules` (src/app.py lines 52-56):
`SELECT * FROM schedules ORDER BY study_date, session`, modelled as a
stable sort of the stored rows by the `rowLe` key. -/
def get_all_schedules (db : DB) : List Row :=
  List.insertionSort rowLe db.rows

/-- The SET clause of the UPDATE statement: the eight mutable columns are
replaced, `id` and `created_at` are not touched. -/
def applyInput (inp : RowInput) (cn cc th sd ss : String) (r : Row) : Row :=
  { r with course_name := cn, course_code := cc, teacher := th,
           lesson := inp.lesson, notes := inp.notes,
           study_date := sd, session := ss, color := inp.color }

/-- `update_schedule` (src/app.py lines 58-67): UPDATE of the eight
mutable columns on every row whose `id` matches.  Zero affected rows is
a silent success.  Setting a NOT NULL column to NULL raises only when a
row actually matches. -/
def update_schedule (db : DB) (sid : Nat) (inp : RowInput) : Except DBError DB :=
  match inp.course_name, inp.course_code, inp.teacher, inp.study_date, inp.session with
  | some cn, some cc, some th, some sd, some ss =>
      Except.ok
        { db with rows := db.rows.map (fun r =>
            if r.id = sid then applyInput inp cn cc th sd ss r else r) }
  | _, _, _, _, _ =>
      if db.rows.any (fun r => r.id = sid) then
        Except.error DBError.notNullViolation
      else
        Except.ok db

/-- `delete_schedule` (src/app.py lines 69-74):
`DELETE FROM schedules WHERE id=?`.  Deleting an absent id affects zero
rows and still returns plain success — the function has no error or
not-found return path. -/
def delete_schedule (db : DB) (sid : Nat) : Except DBError DB :=
  Except.ok { db with rows := db.rows.filter (fun r => r.id ≠ sid) }

/-- Reading one entry back by id, as the Manage tab does with
`df[df['id'] == schedule_id].iloc[0]` (src/app.py line 306): the first
stored row whose id matches. -/
def find_schedule (db : DB) (sid : Nat) : Option Row :=
  db.rows.find? (fun r => r.id = sid)

/-! ### CSV export (`export_to_csv`, src/app.py lines 76-78)

`df.to_csv(index=False).encode('utf-8')` writes the header row followed by
one line per dataframe row, each line terminated by a newline, fields
separated by commas, quoted QUOTE_MINIMAL style: a field containing a
comma, a double quote, or a CR/LF is wrapped in double quotes with inner
quotes doubled.  A SQL NULL (pandas `None`/`NaN`) is written as the empty
field. -/

/-- QUOTE_MINIMAL test of Python's csv writer: quote when the field holds
the delimiter, the quote char, or a line break character. -/
def needsQuoting (cs : List Char) : Bool :=
  cs.any (fun c => c = ',' || c = '"' || c = '\n' || c = '\r')

/-- Double every double-quote character, as the csv writer does inside a
quoted field. -/
def escapeChars : List Char → List Char
  | [] => []
  | c :: cs => if c = '"' then '"' :: '"' :: escapeChars cs else c :: escapeChars cs

/-- One CSV field as written by Python's csv writer with QUOTE_MINIMAL. -/
def escapeField (s : String) : String :=
  if needsQuoting s.data then String.mk ('"' :: (escapeChars s.data ++ ['"'])) else s

/-- Modelled from the spec: the standard CSV reading of a single field —
strip one surrounding pair of double quotes and collapse doubled quotes.
Used to state that `escapeField` is standard, invertible CSV escaping. -/
def unescapeChars : List Char → List Char
  | [] => []
  | [c] => [c]
  | c :: d :: cs =>
    if c = '"' ∧ d = '"' then '"' :: unescapeChars cs
    else c :: unescapeChars (d :: cs)

/-- Modelled from the spec: standard CSV field parsing (inverse of the
writer's escaping). -/
def parseCsvField (s : String) : String :=
  match s.data with
  | '"' :: rest => String.mk (unescapeChars rest.dropLast)
  | _ => s

/-- A NULL-able column as pandas renders it in CSV: NULL becomes the empty
field. -/
def csvCell : Option String → String
  | none => ""
  | some s => s

/-- The ten dataframe columns of `SELECT *`, in schema order — these are
the CSV header names. -/
def csv_header_fields : List String :=
  ["id", "course_name", "course_code", "teacher", "lesson", "notes",
   "study_date", "session", "color", "created_at"]

/-- The field values of one data row, in the same column order. -/
def row_fields (r : Row) : List String :=
  [toString r.id, r.course_name, r.course_code, r.teacher, csvCell r.lesson,
   csvCell r.notes, r.study_date, r.session, csvCell r.color, r.created_at]

/-- One CSV line: the escaped fields joined by commas. -/
def csv_line (fields : List String) : String :=
  String.intercalate "," (fields.map escapeField)

/-- All lines of the export: the header line, then one line per entry in
`get_all_schedules` order. -/
def csv_lines (db : DB) : List String :=
  csv_line csv_header_fields ::
    (get_all_schedules db).map (fun r => csv_line (row_fields r))

/-- `export_to_csv` (src/app.py lines 76-78): the full UTF-8 text, every
line newline-terminated. -/
def export_to_csv (db : DB) : String :=
  String.intercalate "\n" (csv_lines db) ++ "\n"

/-! ### PDF export (`generate_pdf`, src/app.py lines 80-132)

Only the table content is data-dependent; styling is a fixed policy.  The
`lesson` and `notes` cells pass through Python's
`x[:40] + '...' if len(str(x)) > 40 else x`: a string longer than 40
characters is cut to its first 40 characters plus an ellipsis; anything
else (including SQL NULL, whose `str` is 4 characters long) is passed
through unchanged. -/

/-- The lesson/notes cell transform of `generate_pdf`
(src/app.py lines 108 and 110). -/
def pdf_truncate : Option String → Option String
  | none => none
  | some s =>
      some (if 40 < s.length then String.mk (s.data.take 40) ++ "..." else s)

/-- The fixed header row of the PDF table (src/app.py line 101). -/
def pdf_header_row : List (Option String) :=
  [some "Date", some "Session", some "Course", some "Code", some "Lesson",
   some "Teacher", some "Notes"]

/-- One PDF table row (src/app.py lines 103-111). -/
def pdf_row (r : Row) : List (Option String) :=
  [some r.study_date, some r.session, some r.course_name, some r.course_code,
   pdf_truncate r.lesson, some r.teacher, pdf_truncate r.notes]

/-- The `data` list handed to `Table` (src/app.py lines 101-111). -/
def pdf_table_data (db : DB) : List (List (Option String)) :=
  pdf_header_row :: (get_all_schedules db).map pdf_row

/-! ### Weekly calendar view (tab2, src/app.py lines 224-290) -/

/-- The session column order of the calendar grid (src/app.py line 241). -/
def sessions : List String := ["Morning", "Afternoon", "Evening"]

/-- The day labels paired positionally with the week dates
(src/app.py line 242). -/
def day_labels : List String :=
  ["Monday", "Tuesday", "Wednesday", "Thursday", "Friday", "Saturday",
   "Sunday"]

/-- The dataframe filter of one calendar cell (src/app.py lines 257-260):
string-exact match on the ISO date and on the session. -/
def cell_schedules (rows : List Row) (dateStr : String) (s : String) :
    List Row :=
  rows.filter (fun r => r.study_date == dateStr && r.session == s)

/-- What one (day, session) cell shows: either the explicit "Free"
placeholder or the stacked entry cards. -/
inductive CalendarCell
  | freeSlot (s : String)
  | cards (s : String) (items : List Row)
deriving DecidableEq, Repr

/-- Rendering of one cell (src/app.py lines 262-288): the "Free"
placeholder exactly when the filter result is empty, otherwise one card
per matching row, none dropped or merged. -/
def render_cell (rows : List Row) (dateStr : String) (s : String) :
    CalendarCell :=
  let ds := cell_schedules rows dateStr s
  if ds.isEmpty then CalendarCell.freeSlot s else CalendarCell.cards s ds

/-- The whole tab-2 body (src/app.py lines 239-290): when the dataframe is
empty only an info message is shown (`none`); otherwise the 7 × 3 grid of
cells, days outermost. -/
def render_week_grid (rows : List Row) (weekDates : List String) :
    Option (List (List CalendarCell)) :=
  if rows.isEmpty then none
  else some (weekDates.map (fun d => sessions.map (fun s => render_cell rows d s)))

/-! ### Week computation (src/app.py lines 234-235)

Python dates are embedded as day numbers: `z` counts days since
1970-01-01 (a Thursday).  `date.weekday()` returns Monday = 0 … Sunday = 6,
which at this embedding is `(z + 3) % 7`; Python's `%` on a positive
modulus agrees with Lean's `Int.emod`.  `days_from_civil` is the standard
civil-calendar conversion giving the day number of a `YYYY-MM-DD` date. -/

/-- `selected_date.weekday()` with Monday = 0 … Sunday = 6. -/
def weekdayZ (z : Int) : Int := (z + 3) % 7

/-- `week_start = selected_date - timedelta(days=selected_date.weekday())`
(src/app.py line 234). -/
def week_start (z : Int) : Int := z - weekdayZ z

/-- `week_dates = [week_start + timedelta(days=i) for i in range(7)]`
(src/app.py line 235). -/
def week_dates (z : Int) : List Int := (List.range 7).map (fun i => week_start z + i)

/-- Day number (days since 1970-01-01) of the civil date `y-m-d`,
standard proleptic-Gregorian conversion — the embedding of a Python
`datetime.date`. -/
def days_from_civil (y m d : Int) : Int :=
  let y2 := if m ≤ 2 then y - 1 else y
  let era := (if 0 ≤ y2 then y2 else y2 - 399) / 400
  let yoe := y2 - era * 400
  let mp := (m + 9) % 12
  let doy := (153 * mp + 2) / 5 + d - 1
  let doe := yoe * 365 + yoe / 4 - yoe / 100 + doy
  era * 146097 + doe - 719468

/-! ## Claim C1 — ordering of `listAll`

The spec claims ties on `study_date` are broken by the declared enum order
Morning < Afternoon < Evening.  The SQL `ORDER BY study_date, session`
compares the `session` TEXT column by collation instead, under which
"Afternoon" < "Evening" < "Morning". -/

/-- The three inserts of the claim's example, in insertion order:
2024-03-10/Evening, 2024-03-09/Morning, 2024-03-10/Morning. -/
def c1_in1 : RowInput :=
  ⟨some "Algebra", some "MATH1", some "Dr. A", none, none,
   some "2024-03-10", some "Evening", some "#4CAF50"⟩

def c1_in2 : RowInput :=
  ⟨some "Biology", some "BIO1", some "Dr. B", none, none,
   some "2024-03-09", some "Morning", some "#4CAF50"⟩

def c1_in3 : RowInput :=
  ⟨some "Chemistry", some "CHEM1", some "Dr. C", none, none,
   some "2024-03-10", some "Morning", some "#4CAF50"⟩

/-- The store produced by the three inserts of the claim's example. -/
def c1_inserted : Except DBError DB :=
  (add_schedule ⟨[], 1⟩ "t1" c1_in1).bind (fun db1 =>
    (add_schedule db1 "t2" c1_in2).bind (fun db2 =>
      add_schedule db2 "t3" c1_in3))

def c1_row1 : Row :=
  ⟨1, "Algebra", "MATH1", "Dr. A", none, none, "2024-03-10", "Evening",
   some "#4CAF50", "t1"⟩

def c1_row2 : Row :=
  ⟨2, "Biology", "BIO1", "Dr. B", none, none, "2024-03-09", "Morning",
   some "#4CAF50", "t2"⟩

def c1_row3 : Row :=
  ⟨3, "Chemistry", "CHEM1", "Dr. C", none, none, "2024-03-10", "Morning",
   some "#4CAF50", "t3"⟩

def c1_db : DB := ⟨[c1_row1, c1_row2, c1_row3], 4⟩

/-- The observable ordering data of a listing. -/
def dateSessionPairs (rows : List Row) : List (String × String) :=
  rows.map (fun r => (r.study_date, r.session))

/-- Claim C1 is false at the claim's own example: inserting
2024-03-10/Evening, 2024-03-09/Morning, 2024-03-10/Morning, `listAll`
returns [03-09/Morning, 03-10/Evening, 03-10/Morning] — Evening before
Morning on the tied date — not the claimed
[03-09/Morning, 03-10/Morning, 03-10/Evening]. -/
theorem c1_counterexample :
    c1_inserted = Except.ok c1_db ∧
    dateSessionPairs (get_all_schedules c1_db) =
      [("2024-03-09", "Morning"), ("2024-03-10", "Evening"),
       ("2024-03-10", "Morning")] ∧
    dateSessionPairs (get_all_schedules c1_db) ≠
      [("2024-03-09", "Morning"), ("2024-03-10", "Morning"),
       ("2024-03-10", "Evening")] := by
  refine ⟨by decide, by decide, by decide⟩

/-- C1 amended: for every set of stored entries and every insertion order,
`get_all_schedules` returns the entries sorted by `study_date` ascending
and, within equal dates, by `session` ascending in text-collation
(alphabetical) order — Afternoon < Evening < Morning — and it returns a
permutation of the stored entries; on the example insertion the order is
[03-09/Morning, 03-10/Evening, 03-10/Morning]. -/
theorem c1_sorted_by_date_then_session_text :
    ∀ db : DB,
      List.Sorted rowLe (get_all_schedules db) ∧
      List.Perm (get_all_schedules db) db.rows ∧
      dateSessionPairs (get_all_schedules c1_db) =
        [("2024-03-09", "Morning"), ("2024-03-10", "Evening"),
         ("2024-03-10", "Morning")] :=
  fun db =>
    ⟨List.sorted_insertionSort rowLe db.rows,
     List.perm_insertionSort rowLe db.rows, by decide⟩

/-! ## Claim C2 — update semantics

The code's `update_schedule` returns `None` unconditionally: an UPDATE
matching zero rows is a silent success, not a distinct not-found signal. -/

theorem map_update_no_match (rows : List Row) (sid : Nat) (f : Row → Row)
    (h : ∀ r ∈ rows, r.id ≠ sid) :
    rows.map (fun r => if r.id = sid then f r else r) = rows := by
  induction rows with
  | nil => rfl
  | cons a l ih =>
    simp only [List.map_cons]
    rw [if_neg (h a (List.mem_cons_self a l)),
        ih (fun r hr => h r (List.mem_cons_of_mem a hr))]

theorem find?_map_update (rows : List Row) (sid : Nat) (f : Row → Row)
    (hf : ∀ r, (f r).id = r.id) :
    (rows.map (fun r => if r.id = sid then f r else r)).find?
        (fun r => r.id = sid)
      = (rows.find? (fun r => r.id = sid)).map
          (fun r => if r.id = sid then f r else r) := by
  induction rows with
  | nil => rfl
  | cons a l ih =>
    by_cases ha : a.id = sid
    · rw [List.map_cons, if_pos ha,
          List.find?_cons_of_pos _ (by simp [hf, ha]),
          List.find?_cons_of_pos _ (by simp [ha])]
      simp [if_pos ha]
    · rw [List.map_cons, if_neg ha,
          List.find?_cons_of_neg _ (by simp [ha]),
          List.find?_cons_of_neg _ (by simp [ha])]
      exact ih

theorem update_schedule_no_match (db : DB) (sid : Nat) (inp : RowInput)
    (h : ∀ r ∈ db.rows, r.id ≠ sid) :
    update_schedule db sid inp = Except.ok db := by
  have hmap : ∀ f : Row → Row,
      db.rows.map (fun r => if r.id = sid then f r else r) = db.rows :=
    fun f => map_update_no_match db.rows sid f h
  have hany : db.rows.any (fun r => r.id = sid) = false := by
    rw [List.any_eq_false]
    intro r hr
    simp [h r hr]
  unfold update_schedule
  rcases inp with ⟨cn, cc, th, le, no, sd, ss, co⟩
  cases cn <;> cases cc <;> cases th <;> cases sd <;> cases ss <;>
    simp [hany, hmap]

def c2_row : Row :=
  ⟨1, "Algebra", "MATH1", "Dr. A", none, none, "2024-03-10", "Morning",
   some "#4CAF50", "t1"⟩

def c2_db : DB := ⟨[c2_row], 2⟩

def c2_inp : RowInput :=
  ⟨some "Physics", some "PHY1", some "Dr. P", none, none,
   some "2024-03-11", some "Evening", some "#FF0000"⟩

/-- Claim C2 is false on the not-found half: updating id 5 in a store
holding only id 1 returns the plain success value with the store
unchanged — there is no NotFoundError signal distinct from success. -/
theorem c2_counterexample :
    update_schedule c2_db 5 c2_inp = Except.ok c2_db ∧
    update_schedule c2_db 5 c2_inp ≠ Except.error DBError.notNullViolation := by
  refine ⟨by decide, by decide⟩

/-- C2 amended: updating an id that is not present is a silent no-op —
plain success with the store unchanged, not a distinct not-found signal;
updating an id that is present succeeds, and re-reading that id returns
exactly the input's mutable fields (id and created_at kept from the
stored row). -/
theorem c2_update_semantics :
    ∀ (dbA : DB) (sidA : Nat) (inpA : RowInput)
      (dbB : DB) (sidB : Nat) (inpB : RowInput) (r0 : Row)
      (cn cc th sd ss : String),
      (∀ r ∈ dbA.rows, r.id ≠ sidA) →
      find_schedule dbB sidB = some r0 →
      inpB.course_name = some cn → inpB.course_code = some cc →
      inpB.teacher = some th → inpB.study_date = some sd →
      inpB.session = some ss →
      update_schedule dbA sidA inpA = Except.ok dbA ∧
      ∃ dbB2, update_schedule dbB sidB inpB = Except.ok dbB2 ∧
        find_schedule dbB2 sidB = some
          { r0 with course_name := cn, course_code := cc, teacher := th,
                    lesson := inpB.lesson, notes := inpB.notes,
                    study_date := sd, session := ss, color := inpB.color } := by
  intro dbA sidA inpA dbB sidB inpB r0 cn cc th sd ss hA hfind hcn hcc hth hsd hss
  refine ⟨update_schedule_no_match dbA sidA inpA hA, ?_⟩
  refine ⟨{ dbB with rows := dbB.rows.map (fun r =>
      if r.id = sidB then applyInput inpB cn cc th sd ss r else r) }, ?_, ?_⟩
  · unfold update_schedule
    rw [hcn, hcc, hth, hsd, hss]
  · have hid : r0.id = sidB := by
      have := List.find?_some hfind
      simpa using this
    unfold find_schedule at hfind ⊢
    rw [find?_map_update dbB.rows sidB (applyInput inpB cn cc th sd ss)
          (fun r => rfl), hfind]
    rw [Option.map_some', if_pos hid]
    rfl

def c2_row_updated : Row :=
  ⟨1, "Physics", "PHY1", "Dr. P", none, none, "2024-03-11", "Evening",
   some "#FF0000", "t1"⟩

def c2_db_updated : DB := ⟨[c2_row_updated], 2⟩

/-- Witness for `c2_update_semantics` at a concrete store: id 7 is absent
(silent no-op), id 1 is present (fields replaced, re-read returns them). -/
theorem c2_update_semantics_witness :
    update_schedule c2_db 7 c2_inp = Except.ok c2_db ∧
    find_schedule c2_db_updated 1 = some c2_row_updated := by
  have h := c2_update_semantics c2_db 7 c2_inp c2_db 1 c2_inp c2_row
    "Physics" "PHY1" "Dr. P" "2024-03-11" "Evening"
    (by decide) (by decide) rfl rfl rfl rfl rfl
  refine ⟨h.1, ?_⟩
  obtain ⟨db2, heq, hfind⟩ := h.2
  have e : update_schedule c2_db 1 c2_inp = Except.ok c2_db_updated := by
    decide
  rw [heq] at e
  injection e with e2
  rw [e2] at hfind
  exact hfind

/-! ## Claim C3 — delete semantics

`delete_schedule` always returns plain success; deleting an id a second
time affects zero rows and reports nothing. -/

theorem filter_ne_length (rows : List Row) (sid : Nat) :
    (rows.filter (fun r => r.id ≠ sid)).length
      + rows.countP (fun r => r.id = sid) = rows.length := by
  induction rows with
  | nil => rfl
  | cons a l ih =>
    by_cases ha : a.id = sid
    · rw [List.filter_cons_of_neg (by simp [ha]),
          List.countP_cons_of_pos _ _ (by simp [ha])]
      simp only [List.length_cons]
      omega
    · rw [List.filter_cons_of_pos (by simp [ha]),
          List.countP_cons_of_neg _ _ (by simp [ha])]
      simp only [List.length_cons]
      omega

def c3_row : Row :=
  ⟨1, "Algebra", "MATH1", "Dr. A", none, none, "2024-03-10", "Morning",
   some "#4CAF50", "t1"⟩

def c3_db : DB := ⟨[c3_row], 2⟩

def c3_db_empty : DB := ⟨[], 2⟩

/-- Claim C3 is false on the second-delete half: after deleting id 1 the
second `delete_schedule` of id 1 returns the plain success value with the
store unchanged — there is no NotFoundError signal. -/
theorem c3_counterexample :
    delete_schedule c3_db 1 = Except.ok c3_db_empty ∧
    delete_schedule c3_db_empty 1 = Except.ok c3_db_empty ∧
    delete_schedule c3_db_empty 1 ≠ Except.error DBError.notNullViolation := by
  refine ⟨by decide, by decide, by decide⟩

/-- C3 amended: when exactly one stored row has the given id, delete
removes exactly that row — the `listAll` count drops by one, every other
row survives, nothing else appears — and a second delete of the same id
is a silent no-op returning plain success with the store unchanged (no
not-found signal). -/
theorem c3_delete_semantics :
    ∀ (db : DB) (sid : Nat) (db' : DB),
      db.rows.countP (fun r => r.id = sid) = 1 →
      delete_schedule db sid = Except.ok db' →
      (get_all_schedules db').length + 1 = (get_all_schedules db).length ∧
      (∀ r ∈ db.rows, r.id ≠ sid → r ∈ db'.rows) ∧
      (∀ r ∈ db'.rows, r ∈ db.rows ∧ r.id ≠ sid) ∧
      delete_schedule db' sid = Except.ok db' ∧
      delete_schedule db' sid ≠ Except.error DBError.notNullViolation := by
  intro db sid db' hcount hdel
  unfold delete_schedule at hdel
  injection hdel with hdel
  have hrows : db'.rows = db.rows.filter (fun r => r.id ≠ sid) := by
    rw [← hdel]
  refine ⟨?_, ?_, ?_, ?_, ?_⟩
  · unfold get_all_schedules
    rw [List.length_insertionSort, List.length_insertionSort, hrows]
    have := filter_ne_length db.rows sid
    omega
  · intro r hr hne
    rw [hrows]
    exact List.mem_filter.mpr ⟨hr, by simp [hne]⟩
  · intro r hr
    rw [hrows] at hr
    have := List.mem_filter.mp hr
    refine ⟨this.1, by simpa using this.2⟩
  · unfold delete_schedule
    have : db'.rows.filter (fun r => r.id ≠ sid) = db'.rows := by
      apply List.filter_eq_self.mpr
      intro a ha
      rw [hrows] at ha
      exact (List.mem_filter.mp ha).2
    rw [this]
  · unfold delete_schedule
    simp

def c3_rowB : Row :=
  ⟨2, "Biology", "BIO1", "Dr. B", none, none, "2024-03-11", "Evening",
   some "#4CAF50", "t2"⟩

def c3_db2 : DB := ⟨[c3_row, c3_rowB], 3⟩

def c3_db2_after : DB := ⟨[c3_rowB], 3⟩

/-- Witness for `c3_delete_semantics` at a concrete two-row store. -/
theorem c3_delete_semantics_witness :
    (get_all_schedules c3_db2_after).length + 1
        = (get_all_schedules c3_db2).length ∧
    c3_rowB ∈ c3_db2_after.rows ∧
    delete_schedule c3_db2_after 1 = Except.ok c3_db2_after := by
  have h := c3_delete_semantics c3_db2 1 c3_db2_after (by decide) (by decide)
  exact ⟨h.1, h.2.1 c3_rowB (by decide) (by decide), h.2.2.2.1⟩

/-! ## Claim C4 — validation before persistence

`add_schedule` runs the INSERT directly on its arguments.  There is no
ValidationError anywhere: invalid session text and unparseable dates are
persisted verbatim, and the only rejection is the storage layer's
NOT NULL constraint. -/

def c4_db0 : DB := ⟨[], 1⟩

/-- An input with a session outside the enum and a date that does not
parse. -/
def c4_inp : RowInput :=
  ⟨some "Algebra", some "MATH1", some "Dr. A", none, none,
   some "not-a-date", some "Lunch", some "#4CAF50"⟩

def c4_row : Row :=
  ⟨1, "Algebra", "MATH1", "Dr. A", none, none, "not-a-date", "Lunch",
   some "#4CAF50", "t1"⟩

def c4_db1 : DB := ⟨[c4_row], 2⟩

/-- Claim C4 is false: a create input with session "Lunch" and study date
"not-a-date" is not rejected — the row is persisted verbatim and no error
distinct from success is raised. -/
theorem c4_counterexample :
    add_schedule c4_db0 "t1" c4_inp = Except.ok c4_db1 ∧
    add_schedule c4_db0 "t1" c4_inp ≠ Except.error DBError.notNullViolation ∧
    get_all_schedules c4_db1 = [c4_row] := by
  refine ⟨by decide, by decide, by decide⟩

/-- An input whose mandatory `session` is SQL NULL. -/
def c4_null_inp : RowInput :=
  ⟨some "Algebra", some "MATH1", some "Dr. A", none, none,
   some "2024-03-10", none, some "#4CAF50"⟩

/-- C4 amended: create performs no validation — any input whose five
mandatory fields are non-NULL is appended verbatim (empty strings,
session values outside the enum and unparseable dates included); only a
NULL mandatory field is rejected, by the NOT NULL storage constraint, and
then no row is written. -/
theorem c4_no_validation :
    ∀ (db : DB) (now : String) (inp inp2 : RowInput)
      (cn cc th sd ss : String),
      inp.course_name = some cn → inp.course_code = some cc →
      inp.teacher = some th → inp.study_date = some sd →
      inp.session = some ss →
      inp2.session = none →
      add_schedule db now inp = Except.ok
        ⟨db.rows ++ [⟨db.next_id, cn, cc, th, inp.lesson, inp.notes, sd, ss,
          inp.color, now⟩], db.next_id + 1⟩ ∧
      add_schedule db now inp2 = Except.error DBError.notNullViolation := by
  intro db now inp inp2 cn cc th sd ss h1 h2 h3 h4 h5 h6
  constructor
  · unfold add_schedule
    rw [h1, h2, h3, h4, h5]
  · unfold add_schedule
    rcases inp2 with ⟨a, b, c, d, e, f, g, k⟩
    cases g with
    | some v => simp at h6
    | none => cases a <;> cases b <;> cases c <;> cases f <;> rfl

/-- Witness for `c4_no_validation` at the concrete inputs above. -/
theorem c4_no_validation_witness :
    add_schedule c4_db0 "t1" c4_inp = Except.ok c4_db1 ∧
    add_schedule c4_db0 "t1" c4_null_inp
      = Except.error DBError.notNullViolation :=
  c4_no_validation c4_db0 "t1" c4_inp c4_null_inp "Algebra" "MATH1" "Dr. A"
    "not-a-date" "Lunch" rfl rfl rfl rfl rfl rfl

/-! ## Claim C5 — update touches neither `id` nor `created_at` nor other
rows -/

/-- Any successful `update_schedule` keeps the counter and maps each row
through a function that changes neither `id` nor `created_at`, touching
only rows whose id matches. -/
theorem update_schedule_ok_shape (db : DB) (sid : Nat) (inp : RowInput)
    (db' : DB) (h : update_schedule db sid inp = Except.ok db') :
    db'.next_id = db.next_id ∧
    ∃ f : Row → Row, (∀ r, (f r).id = r.id) ∧
      (∀ r, (f r).created_at = r.created_at) ∧
      db'.rows = db.rows.map (fun r => if r.id = sid then f r else r) := by
  unfold update_schedule at h
  split at h
  · rename_i cn cc th sd ss heq1 heq2 heq3 heq4 heq5
    injection h with h
    subst h
    exact ⟨rfl, applyInput inp cn cc th sd ss, fun r => rfl, fun r => rfl, rfl⟩
  · split at h
    · exact absurd h (by simp)
    · injection h with h
      subst h
      exact ⟨rfl, id, fun r => rfl, fun r => rfl, by simp⟩

/-- C5: a successful update keeps the id and created_at of every row and
leaves every row whose id differs completely unchanged. -/
theorem c5_update_frame :
    ∀ (db : DB) (sid : Nat) (inp : RowInput) (db' : DB),
      update_schedule db sid inp = Except.ok db' →
      db'.next_id = db.next_id ∧
      db'.rows.length = db.rows.length ∧
      (∀ i : Nat,
        (db'.rows[i]?).map Row.id = (db.rows[i]?).map Row.id ∧
        (db'.rows[i]?).map Row.created_at
          = (db.rows[i]?).map Row.created_at) ∧
      (∀ i : Nat, ∀ r : Row, db.rows[i]? = some r → r.id ≠ sid →
        db'.rows[i]? = some r) := by
  intro db sid inp db' h
  obtain ⟨hnext, f, hid, hca, hrows⟩ := update_schedule_ok_shape db sid inp db' h
  refine ⟨hnext, ?_, ?_, ?_⟩
  · rw [hrows]
    simp
  · intro i
    rw [hrows, List.getElem?_map]
    cases hx : db.rows[i]? with
    | none => exact ⟨rfl, rfl⟩
    | some r =>
      simp only [Option.map_some']
      constructor
      · by_cases hr : r.id = sid
        · rw [if_pos hr, hid r]
        · rw [if_neg hr]
      · by_cases hr : r.id = sid
        · rw [if_pos hr, hca r]
        · rw [if_neg hr]
  · intro i r hx hne
    rw [hrows, List.getElem?_map, hx, Option.map_some', if_neg hne]

def c5_rowA : Row :=
  ⟨1, "Algebra", "MATH1", "Dr. A", none, none, "2024-03-10", "Morning",
   some "#4CAF50", "t1"⟩

def c5_rowB : Row :=
  ⟨2, "Biology", "BIO1", "Dr. B", none, none, "2024-03-11", "Evening",
   some "#4CAF50", "t2"⟩

def c5_db : DB := ⟨[c5_rowA, c5_rowB], 3⟩

def c5_inp : RowInput :=
  ⟨some "NewName", some "NEW1", some "Dr. N", some "les", some "nts",
   some "2024-04-01", some "Afternoon", some "#123456"⟩

def c5_db_after : DB :=
  ⟨[⟨1, "NewName", "NEW1", "Dr. N", some "les", some "nts", "2024-04-01",
     "Afternoon", some "#123456", "t1"⟩, c5_rowB], 3⟩

/-- Witness for `c5_update_frame`: updating id 1 keeps id 1's identity
fields and leaves id 2's row untouched. -/
theorem c5_update_frame_witness :
    c5_db_after.next_id = c5_db.next_id ∧
    (c5_db_after.rows[0]?).map Row.id = (c5_db.rows[0]?).map Row.id ∧
    (c5_db_after.rows[0]?).map Row.created_at
      = (c5_db.rows[0]?).map Row.created_at ∧
    c5_db_after.rows[1]? = some c5_rowB := by
  have h := c5_update_frame c5_db 1 c5_inp c5_db_after (by decide)
  exact ⟨h.1, (h.2.2.1 0).1, (h.2.2.1 0).2,
    h.2.2.2 1 c5_rowB (by decide) (by decide)⟩

/-! ## Claim C6 — PDF truncation at 40 characters -/

/-- C6: in the PDF table a lesson longer than 40 characters is rendered
as exactly its first 40 characters (a length-40 piece that the rest of
the string extends) followed by "...", and a notes value of at most 40
characters is rendered verbatim. -/
theorem c6_pdf_truncation :
    ∀ (r : Row) (s t : String),
      r.lesson = some s → r.notes = some t →
      40 < s.length → t.length ≤ 40 →
      pdf_row r = [some r.study_date, some r.session, some r.course_name,
        some r.course_code, some (String.mk (s.data.take 40) ++ "..."),
        some r.teacher, some t] ∧
      (String.mk (s.data.take 40)).length = 40 ∧
      String.mk (s.data.take 40) ++ String.mk (s.data.drop 40) = s := by
  intro r s t hl hn hs ht
  refine ⟨?_, ?_, ?_⟩
  · unfold pdf_row
    rw [hl, hn]
    simp only [pdf_truncate]
    rw [if_pos hs, if_neg (by omega)]
  · show (s.data.take 40).length = 40
    rw [List.length_take]
    have hlen : s.length = s.data.length := rfl
    omega
  · show String.mk (s.data.take 40 ++ s.data.drop 40) = s
    rw [List.take_append_drop]

def c6_row : Row :=
  ⟨1, "Algebra", "MATH1", "Dr. A",
   some "aaaaaaaaaabbbbbbbbbbccccccccccddddddddddeeeee",
   some "aaaaaaaaaabbbbbbbbbbccccccccccdddddddddd",
   "2024-03-10", "Morning", some "#4CAF50", "t1"⟩

/-- Witness for `c6_pdf_truncation`: a 45-character lesson is cut to its
first 40 characters plus "...", a 40-character notes value is verbatim. -/
theorem c6_pdf_truncation_witness :
    pdf_row c6_row = [some "2024-03-10", some "Morning", some "Algebra",
      some "MATH1",
      some "aaaaaaaaaabbbbbbbbbbccccccccccdddddddddd...",
      some "Dr. A",
      some "aaaaaaaaaabbbbbbbbbbccccccccccdddddddddd"] := by
  have h := c6_pdf_truncation c6_row
    "aaaaaaaaaabbbbbbbbbbccccccccccddddddddddeeeee"
    "aaaaaaaaaabbbbbbbbbbccccccccccdddddddddd"
    rfl rfl (by decide) (by decide)
  rw [h.1]
  rfl

/-! ## Claim C7 — CSV export -/

theorem unescapeChars_cons (c : Char) (cs : List Char) (hc : c ≠ '"') :
    unescapeChars (c :: cs) = c :: unescapeChars cs := by
  cases cs with
  | nil => rfl
  | cons d cs => simp [unescapeChars, hc]

theorem unescape_escape (cs : List Char) :
    unescapeChars (escapeChars cs) = cs := by
  induction cs with
  | nil => rfl
  | cons c cs ih =>
    by_cases hc : c = '"'
    · subst hc
      simp [escapeChars, unescapeChars, ih]
    · simp [escapeChars, hc, unescapeChars_cons c _ hc, ih]

/-- The writer's QUOTE_MINIMAL escaping is standard CSV: the standard
field parse recovers every field exactly. -/
theorem parse_escapeField (s : String) : parseCsvField (escapeField s) = s := by
  unfold escapeField
  by_cases h : needsQuoting s.data = true
  · rw [if_pos h]
    unfold parseCsvField
    show String.mk (unescapeChars ((escapeChars s.data ++ ['"']).dropLast)) = s
    rw [List.dropLast_concat, unescape_escape]
  · rw [if_neg h]
    unfold parseCsvField
    split
    · rename_i rest heq
      exfalso
      apply h
      rw [heq]
      simp [needsQuoting]
    · rfl

/-- C7: the export is the header line with exactly the ten fixed column
names, followed by one line per entry in `get_all_schedules` order, each
line newline-terminated, with invertible standard CSV escaping of every
field. -/
theorem c7_csv_export :
    ∀ (db : DB) (i : Nat) (r : Row) (s : String),
      (get_all_schedules db)[i]? = some r →
      export_to_csv db = String.intercalate "\n" (csv_lines db) ++ "\n" ∧
      (csv_lines db).head? = some
        "id,course_name,course_code,teacher,lesson,notes,study_date,session,color,created_at" ∧
      (csv_lines db).length = (get_all_schedules db).length + 1 ∧
      (csv_lines db)[i + 1]? = some (csv_line (row_fields r)) ∧
      parseCsvField (escapeField s) = s := by
  intro db i r s hi
  refine ⟨rfl, ?_, ?_, ?_, parse_escapeField s⟩
  · unfold csv_lines
    rw [List.head?_cons]
    decide
  · unfold csv_lines
    simp
  · unfold csv_lines
    rw [List.getElem?_cons_succ, List.getElem?_map, hi, Option.map_some']

def c7_row : Row :=
  ⟨1, "Calc, I", "M\"1", "Dr. A", none, some "l1\nl2", "2024-03-10",
   "Morning", some "#4CAF50", "t1"⟩

def c7_db : DB := ⟨[c7_row], 2⟩

/-- Witness for `c7_csv_export` on a store whose fields contain a comma,
a quote and a newline. -/
theorem c7_csv_export_witness :
    export_to_csv c7_db = String.intercalate "\n" (csv_lines c7_db) ++ "\n" ∧
    (csv_lines c7_db).head? = some
      "id,course_name,course_code,teacher,lesson,notes,study_date,session,color,created_at" ∧
    (csv_lines c7_db).length = (get_all_schedules c7_db).length + 1 ∧
    (csv_lines c7_db)[0 + 1]? = some (csv_line (row_fields c7_row)) ∧
    parseCsvField (escapeField "a,b\"c\nd") = "a,b\"c\nd" :=
  c7_csv_export c7_db 0 c7_row "a,b\"c\nd" (by decide)

/-! ## Claim C8 — Monday-based week start -/

/-- C8: `week_start` subtracts the Monday-0 weekday, always lands on a
Monday, and `week_dates` are the seven consecutive days from it, paired
positionally with Monday..Sunday; concretely, the week of Wednesday
2024-03-13 starts on Monday 2024-03-11 and runs through 2024-03-17, and
even for Sunday 2024-03-17 the week start is 2024-03-11. -/
theorem c8_week_start :
    ∀ z : Int,
      week_start z = z - weekdayZ z ∧
      0 ≤ weekdayZ z ∧ weekdayZ z < 7 ∧
      weekdayZ (week_start z) = 0 ∧
      week_dates z = [week_start z, week_start z + 1, week_start z + 2,
        week_start z + 3, week_start z + 4, week_start z + 5,
        week_start z + 6] ∧
      (week_dates z).zip day_labels =
        [(week_start z, "Monday"), (week_start z + 1, "Tuesday"),
         (week_start z + 2, "Wednesday"), (week_start z + 3, "Thursday"),
         (week_start z + 4, "Friday"), (week_start z + 5, "Saturday"),
         (week_start z + 6, "Sunday")] ∧
      weekdayZ (days_from_civil 2024 3 13) = 2 ∧
      week_start (days_from_civil 2024 3 13) = days_from_civil 2024 3 11 ∧
      week_dates (days_from_civil 2024 3 13) =
        [days_from_civil 2024 3 11, days_from_civil 2024 3 12,
         days_from_civil 2024 3 13, days_from_civil 2024 3 14,
         days_from_civil 2024 3 15, days_from_civil 2024 3 16,
         days_from_civil 2024 3 17] ∧
      weekdayZ (days_from_civil 2024 3 17) = 6 ∧
      week_start (days_from_civil 2024 3 17) = days_from_civil 2024 3 11 := by
  intro z
  have hlist : week_dates z = [week_start z, week_start z + 1,
      week_start z + 2, week_start z + 3, week_start z + 4,
      week_start z + 5, week_start z + 6] := by
    unfold week_dates
    have h7 : List.range 7 = [0, 1, 2, 3, 4, 5, 6] := by decide
    rw [h7]
    simp
  refine ⟨rfl, ?_, ?_, ?_, hlist, ?_, by decide, by decide, by decide,
    by decide, by decide⟩
  · show 0 ≤ (z + 3) % 7
    omega
  · show (z + 3) % 7 < 7
    omega
  · show (z - (z + 3) % 7 + 3) % 7 = 0
    omega
  · rw [hlist]
    simp [day_labels]

/-! ## Claim C9 — calendar grid cells

Tab 2 renders cells only when the dataframe is nonempty
(src/app.py line 239): with no entries at all no grid — and no free
placeholder — is rendered. -/

def c9_week : List String :=
  ["2024-03-11", "2024-03-12", "2024-03-13", "2024-03-14", "2024-03-15",
   "2024-03-16", "2024-03-17"]

/-- The 7 × 3 grid of free placeholders that the claim would require for
an empty entry list. -/
def all_free_grid (w : List String) : List (List CalendarCell) :=
  w.map (fun _ => sessions.map CalendarCell.freeSlot)

/-- Claim C9 is false at the empty entry list: tab 2 shows an info
message instead of a grid, so the 21 empty cells are not rendered as
"free" placeholders. -/
theorem c9_counterexample :
    render_week_grid [] c9_week = none ∧
    render_week_grid [] c9_week ≠ some (all_free_grid c9_week) := by
  refine ⟨by decide, by decide⟩

/-- C9 amended: for every nonempty entry list the 7 × 3 grid is rendered
and each (day, session) cell holds exactly the entries whose
`study_date` string-equals the day's ISO date and whose `session` equals
the slot — all of them, none dropped or merged — while a cell with no
matching entry is the explicit free placeholder, distinct from every
populated cell. -/
theorem c9_grid_cells :
    ∀ (rows : List Row) (weekDates : List String) (d s : String) (r : Row),
      rows ≠ [] →
      render_week_grid rows weekDates =
        some (weekDates.map (fun d2 => sessions.map
          (fun s2 => render_cell rows d2 s2))) ∧
      (r ∈ cell_schedules rows d s ↔
        (r ∈ rows ∧ r.study_date = d ∧ r.session = s)) ∧
      (cell_schedules rows d s = [] →
        render_cell rows d s = CalendarCell.freeSlot s) ∧
      (cell_schedules rows d s ≠ [] →
        render_cell rows d s
          = CalendarCell.cards s (cell_schedules rows d s)) ∧
      (∀ items : List Row,
        CalendarCell.freeSlot s ≠ CalendarCell.cards s items) := by
  intro rows weekDates d s r hne
  refine ⟨?_, ?_, ?_, ?_, ?_⟩
  · cases rows with
    | nil => exact absurd rfl hne
    | cons a l => rfl
  · unfold cell_schedules
    rw [List.mem_filter]
    simp [Bool.and_eq_true, beq_iff_eq, and_assoc]
  · intro h
    simp [render_cell, h]
  · intro h
    unfold render_cell
    rw [if_neg (by simp [List.isEmpty_iff, h])]
  · intro items hcc
    exact CalendarCell.noConfusion hcc

def c9_wrow : Row :=
  ⟨1, "Algebra", "MATH1", "Dr. A", none, none, "2024-03-15", "Afternoon",
   some "#4CAF50", "t1"⟩

/-- Witness for `c9_grid_cells`: one entry dated 2024-03-15/Afternoon
lands in exactly that cell, and the Morning cell of the same day is the
free placeholder. -/
theorem c9_grid_cells_witness :
    (render_week_grid [c9_wrow] c9_week).isSome = true ∧
    c9_wrow ∈ cell_schedules [c9_wrow] "2024-03-15" "Afternoon" ∧
    render_cell [c9_wrow] "2024-03-15" "Afternoon"
      = CalendarCell.cards "Afternoon" [c9_wrow] ∧
    render_cell [c9_wrow] "2024-03-15" "Morning"
      = CalendarCell.freeSlot "Morning" := by
  have h1 := c9_grid_cells [c9_wrow] c9_week "2024-03-15" "Afternoon" c9_wrow
    (by decide)
  have h2 := c9_grid_cells [c9_wrow] c9_week "2024-03-15" "Morning" c9_wrow
    (by decide)
  refine ⟨?_, ?_, ?_, ?_⟩
  · rw [h1.1]
    rfl
  · exact (h1.2.1).mpr ⟨by simp, rfl, rfl⟩
  · rw [h1.2.2.2.1 (by decide)]
    decide
  · exact h2.2.2.1 (by decide)

/-! ## Claim C10 — empty strings satisfy the NOT NULL constraints -/

def c10_input : RowInput :=
  ⟨some "", some "", some "", none, none, some "2024-03-10", some "Morning",
   some "#4CAF50"⟩

def c10_row : Row :=
  ⟨1, "", "", "", none, none, "2024-03-10", "Morning", some "#4CAF50",
   "2024-03-01 09:00:00"⟩

def c10_db0 : DB := ⟨[], 1⟩

def c10_db1 : DB := ⟨[c10_row], 2⟩

def c10_null_input : RowInput :=
  ⟨none, some "X", some "Y", none, none, some "2024-03-10", some "Morning",
   some "#4CAF50"⟩

/-- C10: a create whose mandatory text fields are empty strings
(non-NULL) succeeds and the row is persisted with no validation error —
the NOT NULL constraints reject only NULL values, as the contrasting
rejection of a NULL `course_name` shows. -/
theorem c10_empty_strings_persist :
    add_schedule c10_db0 "2024-03-01 09:00:00" c10_input
      = Except.ok c10_db1 ∧
    get_all_schedules c10_db1 = [c10_row] ∧
    add_schedule c10_db0 "2024-03-01 09:00:00" c10_null_input
      = Except.error DBError.notNullViolation := by
  refine ⟨by decide, by decide, by decide⟩

end StudySchedule
